import Mathlib

/-!
Verification development for the GrowthStack investment projection engine
(`src/utils/financial.ts` of SKSXploreAI) and its report serializer.

JavaScript numbers are modelled as exact rationals (`ℚ`); the only places the
source computes with a fractional exponent (`Math.pow(base, m / 12)` for the
inflation-adjusted "real value", and `Math.pow(base, durationYears)` for the
final real wealth) are modelled over `ℝ` with real exponentiation (`rpow`).
All other arithmetic of the engine is exact in the source's own terms.
-/

namespace GrowthStack

/-- `StepUpFrequency` from `src/types.ts`. -/
inductive StepUpFrequency where
  | MONTHLY
  | YEARLY
deriving DecidableEq, Repr

/-- `CalculatorMode` from `src/types.ts`. -/
inductive CalculatorMode where
  | SIP
  | LUMPSUM
  | STEP_UP
deriving DecidableEq, Repr

/-- `LumpsumInjection` from `src/types.ts`: an ad-hoc extra contribution tied
to a `(year, month)` pair.  `year`, `month` and `amount` are JS numbers. -/
structure LumpsumInjection where
  id : String
  year : ℚ
  month : ℚ
  amount : ℚ
deriving DecidableEq, Repr

/-- `CalculatorState` from `src/types.ts`: the input record of `calculateSIP`.
`targetAmount` is optional (`targetAmount?: number`). -/
structure CalculatorState where
  mode : CalculatorMode
  monthlyInvestment : ℚ
  lumpsumInvestment : ℚ
  annualInterestRate : ℚ
  inflationRate : ℚ
  durationYears : ℚ
  stepUpAmount : ℚ
  stepUpFrequency : StepUpFrequency
  additionalLumpsums : List LumpsumInjection
  targetAmount : Option ℚ
deriving DecidableEq, Repr

/-- `MonthlyDataPoint` from `src/types.ts`.  The `realValue` field is the one
quantity the engine computes with a fractional real exponent, so it lives
in `ℝ`. -/
structure MonthlyDataPoint where
  monthIndex : ℕ
  year : ℕ
  invested : ℚ
  value : ℚ
  realValue : ℝ
  installment : ℚ

/-- `YearlyResult` from `src/types.ts`. -/
structure YearlyResult where
  year : ℕ
  investedAmount : ℚ
  interestEarned : ℚ
  totalValue : ℚ
  realValue : ℝ

/-- `CalculationResult` from `src/types.ts`: the output record of
`calculateSIP`.  `goalAchievedMonth` stores the `{year, month}` object as a
pair. -/
structure CalculationResult where
  totalInvested : ℚ
  totalWealth : ℚ
  totalRealWealth : ℝ
  totalGain : ℚ
  monthlyData : List MonthlyDataPoint
  yearlyBreakdown : List YearlyResult
  goalAchievedMonth : Option (ℕ × ℕ)

/-- `totalMonths = durationYears * 12` (a JS number; `durationYears` need not
be an integer a priori). -/
def totalMonthsQ (s : CalculatorState) : ℚ := s.durationYears * 12

/-- The number of iterations of the source's
`for (let m = 1; m <= totalMonths; m++)` loop: the number of integers `m ≥ 1`
with `m ≤ totalMonths`, i.e. `⌊totalMonths⌋` clamped at `0`. -/
def numMonths (s : CalculatorState) : ℕ := (⌊totalMonthsQ s⌋).toNat

/-- `monthlyRate = annualInterestRate / 12 / 100`. -/
def monthlyRate (s : CalculatorState) : ℚ := s.annualInterestRate / 12 / 100

/-- `annualInflationDecimal = (inflationRate || 0) / 100`; on rational inputs
the JS `|| 0` fallback is the identity (it maps `0` to `0`). -/
def annualInflationDecimal (s : CalculatorState) : ℚ := s.inflationRate / 100

/-- `Math.ceil(m / 12)` for a positive integer month index `m`: the 1-based
project year containing month `m`. -/
def yearOf (m : ℕ) : ℕ := (m + 11) / 12

/-- `((m - 1) % 12) + 1`: the 1-based month within its project year. -/
def monthOf (m : ℕ) : ℕ := (m - 1) % 12 + 1

/-- The filter predicate of `getAdditionalLumpsumsForMonth`:
`l.year === currentYear && l.month === currentMonthInYear`. -/
def matchesMonth (l : LumpsumInjection) (m : ℕ) : Bool :=
  decide (l.year = (yearOf m : ℚ)) && decide (l.month = (monthOf m : ℚ))

/-- `getAdditionalLumpsumsForMonth` from `src/utils/financial.ts`: sum of the
amounts of every injection whose `(year, month)` pair equals the given
month's `(currentYear, currentMonthInYear)`. -/
def getAdditionalLumpsumsForMonth (s : CalculatorState) (m : ℕ) : ℚ :=
  (s.additionalLumpsums.filter (fun l => matchesMonth l m)).foldl
    (fun sum l => sum + l.amount) 0

/-- Initial `currentMonthlyInstallment`:
`mode === LUMPSUM ? 0 : monthlyInvestment`. -/
def initInstallment (s : CalculatorState) : ℚ :=
  match s.mode with
  | CalculatorMode.LUMPSUM => 0
  | _ => s.monthlyInvestment

/-- Initial `currentBalance`: `lumpsumInvestment` in LUMPSUM mode, else `0`. -/
def initBalance (s : CalculatorState) : ℚ :=
  match s.mode with
  | CalculatorMode.LUMPSUM => s.lumpsumInvestment
  | _ => 0

/-- Initial `totalInvested`: `lumpsumInvestment` in LUMPSUM mode, else `0`. -/
def initTotalInvested (s : CalculatorState) : ℚ :=
  match s.mode with
  | CalculatorMode.LUMPSUM => s.lumpsumInvestment
  | _ => 0

/-- The step-up adjustment applied at the top of the loop body for month `m`:
only in STEP_UP mode and only when `m > 1`; MONTHLY adds `stepUpAmount` every
month, YEARLY adds it exactly when `(m - 1) % 12 === 0`. -/
def stepUpAdjust (s : CalculatorState) (m : ℕ) (inst : ℚ) : ℚ :=
  if s.mode = CalculatorMode.STEP_UP ∧ 1 < m then
    match s.stepUpFrequency with
    | StepUpFrequency.MONTHLY => inst + s.stepUpAmount
    | StepUpFrequency.YEARLY =>
        if (m - 1) % 12 = 0 then inst + s.stepUpAmount else inst
  else inst

/-- The mutable state threaded through the simulation loop. -/
structure SimState where
  balance : ℚ
  totalInvested : ℚ
  installment : ℚ
  monthlyData : List MonthlyDataPoint
  yearlyBreakdown : List YearlyResult
  goal : Option (ℕ × ℕ)

/-- Loop state before the first iteration. -/
def initState (s : CalculatorState) : SimState :=
  { balance := initBalance s
    totalInvested := initTotalInvested s
    installment := initInstallment s
    monthlyData := []
    yearlyBreakdown := []
    goal := none }

/-- One iteration of the simulation loop of `calculateSIP` for month `m`
(1-based).  Mirrors `src/utils/financial.ts` lines 76-142: step-up, injection
lookup, annuity-due deposit, interest, real value, goal check (the JS guard
`targetAmount && ...` is falsy when `targetAmount` is absent or `0`), the
monthly record, and the year-end snapshot. -/
noncomputable def step (s : CalculatorState) (st : SimState) (m : ℕ) : SimState :=
  let inst := stepUpAdjust s m st.installment
  let additionalLumpsum := getAdditionalLumpsumsForMonth s m
  let investmentThisMonth := inst + additionalLumpsum
  let balanceAfterDeposit := st.balance + investmentThisMonth
  let interestForMonth := balanceAfterDeposit * monthlyRate s
  let newBalance := balanceAfterDeposit + interestForMonth
  let newTotal := st.totalInvested + investmentThisMonth
  let realValue : ℝ :=
    (newBalance : ℝ) / (1 + (annualInflationDecimal s : ℝ)) ^ ((m : ℝ) / 12)
  let newGoal :=
    match s.targetAmount with
    | some t =>
        if t ≠ 0 ∧ t ≤ newBalance ∧ st.goal = none then
          some (yearOf m, monthOf m)
        else st.goal
    | none => st.goal
  { balance := newBalance
    totalInvested := newTotal
    installment := inst
    monthlyData := st.monthlyData ++
      [{ monthIndex := m, year := yearOf m, invested := newTotal,
         value := newBalance, realValue := realValue, installment := inst }]
    yearlyBreakdown :=
      if m % 12 = 0 ∨ (m : ℚ) = totalMonthsQ s then
        st.yearlyBreakdown ++
          [{ year := yearOf m, investedAmount := newTotal,
             interestEarned := newBalance - newTotal,
             totalValue := newBalance, realValue := realValue }]
      else st.yearlyBreakdown
    goal := newGoal }

/-- The whole simulation loop: fold `step` over the months `1, …, totalMonths`. -/
noncomputable def simulate (s : CalculatorState) : SimState :=
  (List.range' 1 (numMonths s)).foldl (step s) (initState s)

/-- `calculateSIP` from `src/utils/financial.ts`: run the loop and package the
result; `totalRealWealth = balance / (1 + annualInflationDecimal) ^ durationYears`. -/
noncomputable def calculateSIP (s : CalculatorState) : CalculationResult :=
  let fin := simulate s
  { totalInvested := fin.totalInvested
    totalWealth := fin.balance
    totalRealWealth :=
      (fin.balance : ℝ) / (1 + (annualInflationDecimal s : ℝ)) ^ ((s.durationYears : ℝ))
    totalGain := fin.balance - fin.totalInvested
    monthlyData := fin.monthlyData
    yearlyBreakdown := fin.yearlyBreakdown
    goalAchievedMonth := fin.goal }

/-! ### Closed-form characterization of the loop state, month by month -/

/-- The installment in effect during month `m` (for `m ≥ 1`); `instAt s 0` is
the initial installment. -/
def instAt (s : CalculatorState) : ℕ → ℚ
  | 0 => initInstallment s
  | m + 1 => stepUpAdjust s (m + 1) (instAt s m)

/-- `investmentThisMonth` of month `m`: installment plus matching injections. -/
def investAt (s : CalculatorState) (m : ℕ) : ℚ :=
  instAt s m + getAdditionalLumpsumsForMonth s m

/-- The closing balance after month `m` (`balAt s 0` is the opening balance). -/
def balAt (s : CalculatorState) : ℕ → ℚ
  | 0 => initBalance s
  | m + 1 =>
      (balAt s m + investAt s (m + 1)) +
        (balAt s m + investAt s (m + 1)) * monthlyRate s

/-- `totalInvested` after month `m`. -/
def totAt (s : CalculatorState) : ℕ → ℚ
  | 0 => initTotalInvested s
  | m + 1 => totAt s m + investAt s (m + 1)

/-- The recorded goal after month `m`. -/
def goalAt (s : CalculatorState) : ℕ → Option (ℕ × ℕ)
  | 0 => none
  | m + 1 =>
      match s.targetAmount with
      | some t =>
          if t ≠ 0 ∧ t ≤ balAt s (m + 1) ∧ goalAt s m = none then
            some (yearOf (m + 1), monthOf (m + 1))
          else goalAt s m
      | none => goalAt s m

/-- The monthly record pushed at month `m`. -/
noncomputable def entryAt (s : CalculatorState) (m : ℕ) : MonthlyDataPoint :=
  { monthIndex := m
    year := yearOf m
    invested := totAt s m
    value := balAt s m
    realValue :=
      (balAt s m : ℝ) / (1 + (annualInflationDecimal s : ℝ)) ^ ((m : ℝ) / 12)
    installment := instAt s m }

/-- The year-end snapshot pushed at month `m` (when one is pushed). -/
noncomputable def yearlyAt (s : CalculatorState) (m : ℕ) : YearlyResult :=
  { year := yearOf m
    investedAmount := totAt s m
    interestEarned := balAt s m - totAt s m
    totalValue := balAt s m
    realValue :=
      (balAt s m : ℝ) / (1 + (annualInflationDecimal s : ℝ)) ^ ((m : ℝ) / 12) }

/-- The condition under which month `m` pushes a year-end snapshot. -/
def yearEndB (s : CalculatorState) (m : ℕ) : Bool :=
  decide (m % 12 = 0 ∨ (m : ℚ) = totalMonthsQ s)

theorem foldl_steps (s : CalculatorState) :
    ∀ n : ℕ,
      (List.range' 1 n).foldl (step s) (initState s) =
        { balance := balAt s n
          totalInvested := totAt s n
          installment := instAt s n
          monthlyData := (List.range' 1 n).map (entryAt s)
          yearlyBreakdown :=
            ((List.range' 1 n).filter (yearEndB s)).map (yearlyAt s)
          goal := goalAt s n } := by
  intro n
  induction n with
  | zero => rfl
  | succ n ih =>
      rw [List.range'_1_concat, List.foldl_append, ih, List.map_append,
        List.filter_append]
      have h1n : 1 + n = n + 1 := Nat.add_comm 1 n
      rw [h1n]
      show step s _ (n + 1) = _
      simp only [step, SimState.mk.injEq]
      have hbal :
          (balAt s n + (stepUpAdjust s (n + 1) (instAt s n) +
              getAdditionalLumpsumsForMonth s (n + 1))) +
            (balAt s n + (stepUpAdjust s (n + 1) (instAt s n) +
              getAdditionalLumpsumsForMonth s (n + 1))) * monthlyRate s =
            balAt s (n + 1) := by
        simp [balAt, investAt, instAt]
      have htot :
          totAt s n + (stepUpAdjust s (n + 1) (instAt s n) +
              getAdditionalLumpsumsForMonth s (n + 1)) = totAt s (n + 1) := by
        simp [totAt, investAt, instAt]
      refine ⟨hbal, htot, ?_, ?_, ?_, ?_⟩
      · simp [instAt]
      · simp only [List.map_cons, List.map_nil, entryAt, hbal, htot]
        simp [instAt]
      · by_cases h : (n + 1) % 12 = 0 ∨ ((n + 1 : ℕ) : ℚ) = totalMonthsQ s
        · have hy : yearEndB s (n + 1) = true := by
            simp only [yearEndB, decide_eq_true_eq]
            exact h
          simp only [if_pos h, List.filter_cons, hy, if_true, List.filter_nil,
            List.map_append, List.map_cons, List.map_nil, yearlyAt]
          rw [hbal, htot]
        · have hy : yearEndB s (n + 1) = false := by
            simp only [yearEndB, decide_eq_false_iff_not]
            exact h
          simp only [if_neg h, List.filter_cons, hy, Bool.false_eq_true,
            if_false, List.filter_nil, List.append_nil]
      · cases htarget : s.targetAmount with
        | none => simp [goalAt, htarget]
        | some t =>
            simp only [goalAt, htarget, hbal]

/-- `simulate` in closed form. -/
theorem simulate_eq (s : CalculatorState) :
    simulate s =
      { balance := balAt s (numMonths s)
        totalInvested := totAt s (numMonths s)
        installment := instAt s (numMonths s)
        monthlyData := (List.range' 1 (numMonths s)).map (entryAt s)
        yearlyBreakdown :=
          ((List.range' 1 (numMonths s)).filter (yearEndB s)).map (yearlyAt s)
        goal := goalAt s (numMonths s) } :=
  foldl_steps s (numMonths s)

/-- When `durationYears` is the natural number `Y`, the loop runs `12 * Y`
months. -/
theorem numMonths_natCast (s : CalculatorState) (Y : ℕ)
    (hY : s.durationYears = (Y : ℚ)) : numMonths s = 12 * Y := by
  have h : totalMonthsQ s = ((12 * Y : ℕ) : ℚ) := by
    rw [totalMonthsQ, hY]
    push_cast
    ring
  rw [numMonths, h, Int.floor_natCast]
  omega

/-- `calculateSIP` in closed form. -/
theorem calculateSIP_eq (s : CalculatorState) :
    calculateSIP s =
      { totalInvested := totAt s (numMonths s)
        totalWealth := balAt s (numMonths s)
        totalRealWealth :=
          (balAt s (numMonths s) : ℝ) /
            (1 + (annualInflationDecimal s : ℝ)) ^ ((s.durationYears : ℝ))
        totalGain := balAt s (numMonths s) - totAt s (numMonths s)
        monthlyData := (List.range' 1 (numMonths s)).map (entryAt s)
        yearlyBreakdown :=
          ((List.range' 1 (numMonths s)).filter (yearEndB s)).map (yearlyAt s)
        goalAchievedMonth := goalAt s (numMonths s) } := by
  rw [calculateSIP, simulate_eq]

/-- A convenient sample state: SIP mode, every numeric field zero except a
one-year duration. -/
def baseState : CalculatorState :=
  { mode := CalculatorMode.SIP
    monthlyInvestment := 0
    lumpsumInvestment := 0
    annualInterestRate := 0
    inflationRate := 0
    durationYears := 1
    stepUpAmount := 0
    stepUpFrequency := StepUpFrequency.YEARLY
    additionalLumpsums := []
    targetAmount := none }

/-! ### C2: monthlyData has exactly `durationYears * 12` entries, indexed 1..N -/

/-- C2: for every state whose `durationYears` is a positive integer `Y`, the
`monthlyData` returned by `calculateSIP` has exactly `Y * 12` entries and its
`monthIndex` fields are exactly `1, 2, …, Y * 12` in order. -/
theorem calculateSIP_monthlyData_indices (s : CalculatorState) (Y : ℕ)
    (hY : s.durationYears = (Y : ℚ)) (hpos : 0 < Y) :
    (calculateSIP s).monthlyData.length = Y * 12 ∧
      (calculateSIP s).monthlyData.map (fun e => e.monthIndex) =
        List.range' 1 (Y * 12) := by
  have hn := numMonths_natCast s Y hY
  rw [calculateSIP_eq]
  constructor
  · simp [hn, Nat.mul_comm]
  · rw [List.map_map]
    have hco : ((fun e => e.monthIndex) ∘ entryAt s) = fun m : ℕ => m := by
      funext m
      simp [entryAt, Function.comp]
    rw [hco, List.map_id', hn, Nat.mul_comm]

/-- Witness for C2 at a concrete one-year state. -/
theorem calculateSIP_monthlyData_indices_witness :
    (calculateSIP baseState).monthlyData.length = 1 * 12 ∧
      (calculateSIP baseState).monthlyData.map (fun e => e.monthIndex) =
        List.range' 1 (1 * 12) :=
  calculateSIP_monthlyData_indices baseState 1 (by norm_num [baseState])
    (by norm_num)

/-! ### C9: non-positive duration produces an empty result -/

/-- C9: for every state with `durationYears ≤ 0`, `calculateSIP` simulates no
months at all: both `monthlyData` and `yearlyBreakdown` are empty (and the
computation is a total function, so it terminates). -/
theorem calculateSIP_empty_of_nonpos_duration (s : CalculatorState)
    (h : s.durationYears ≤ 0) :
    (calculateSIP s).monthlyData = [] ∧ (calculateSIP s).yearlyBreakdown = [] := by
  have hq : totalMonthsQ s ≤ 0 := by
    rw [totalMonthsQ]
    exact mul_nonpos_iff.mpr (Or.inr ⟨h, by norm_num⟩)
  have hfl : ⌊totalMonthsQ s⌋ ≤ 0 := by
    calc ⌊totalMonthsQ s⌋ ≤ ⌊(0 : ℚ)⌋ := Int.floor_le_floor hq
    _ = 0 := by simp
  have hn : numMonths s = 0 := by
    rw [numMonths]
    omega
  rw [calculateSIP_eq]
  simp [hn]

/-- Witness for C9 at a concrete zero-duration state. -/
theorem calculateSIP_empty_of_nonpos_duration_witness :
    (calculateSIP { baseState with durationYears := 0 }).monthlyData = [] ∧
      (calculateSIP { baseState with durationYears := 0 }).yearlyBreakdown = [] :=
  calculateSIP_empty_of_nonpos_duration { baseState with durationYears := 0 }
    (by norm_num [baseState])

/-! ### C6: zero interest rate gives wealth = invested exactly -/

/-- With a zero interest rate the balance always coincides with the running
`totalInvested`. -/
theorem balAt_eq_totAt_of_zero_rate (s : CalculatorState)
    (hr : s.annualInterestRate = 0) : ∀ m : ℕ, balAt s m = totAt s m := by
  have hrate : monthlyRate s = 0 := by
    rw [monthlyRate, hr]
    norm_num
  intro m
  induction m with
  | zero =>
      show initBalance s = initTotalInvested s
      cases s.mode <;> rfl
  | succ m ih =>
      rw [balAt, totAt, hrate, ih]
      ring

/-- C6: for every state whose `durationYears` is a positive integer and whose
`annualInterestRate` is `0`, `calculateSIP` returns `totalWealth` exactly
equal to `totalInvested` and `totalGain` exactly `0`, in every mode, with any
step-ups and injections. -/
theorem calculateSIP_zero_rate_wealth_eq_invested (s : CalculatorState) (Y : ℕ)
    (hY : s.durationYears = (Y : ℚ)) (hpos : 0 < Y)
    (hr : s.annualInterestRate = 0) :
    (calculateSIP s).totalWealth = (calculateSIP s).totalInvested ∧
      (calculateSIP s).totalGain = 0 := by
  have hbt := balAt_eq_totAt_of_zero_rate s hr
  rw [calculateSIP_eq]
  exact ⟨hbt _, by rw [hbt, sub_self]⟩

/-- Witness for C6 at a concrete zero-rate state. -/
theorem calculateSIP_zero_rate_wealth_eq_invested_witness :
    (calculateSIP baseState).totalWealth = (calculateSIP baseState).totalInvested ∧
      (calculateSIP baseState).totalGain = 0 :=
  calculateSIP_zero_rate_wealth_eq_invested baseState 1 (by norm_num [baseState])
    (by norm_num) (by norm_num [baseState])

/-! ### C10: a goal of exactly 0 is never recorded (truthiness guard) -/

/-- C10: for every state whose `targetAmount` is exactly `0`, `calculateSIP`
never records a goal: `goalAchievedMonth` is absent, because the JS guard
`targetAmount && …` treats a zero target as unset. -/
theorem calculateSIP_zero_target_no_goal (s : CalculatorState)
    (h : s.targetAmount = some 0) :
    (calculateSIP s).goalAchievedMonth = none := by
  have hg : ∀ m : ℕ, goalAt s m = none := by
    intro m
    induction m with
    | zero => rfl
    | succ m ih => simp [goalAt, h, ih]
  rw [calculateSIP_eq]
  exact hg _

/-- Witness for C10 at a concrete state with a zero target. -/
theorem calculateSIP_zero_target_no_goal_witness :
    (calculateSIP { baseState with targetAmount := some 0 }).goalAchievedMonth =
      none :=
  calculateSIP_zero_target_no_goal { baseState with targetAmount := some 0 } rfl

/-! ### C1: accounting identity for `totalInvested` -/

/-- The spec's in-range predicate for an injection: its `(year, month)` pair
lies within `[1, durationYears] × [1, 12]` (with integral coordinates). -/
def inRangeB (Y : ℕ) (l : LumpsumInjection) : Bool :=
  (List.range' 1 Y).any fun y =>
    (List.range' 1 12).any fun mo =>
      decide (l.year = (y : ℚ)) && decide (l.month = (mo : ℚ))

/-- An injection matched by some simulated month among `1, …, n`. -/
def hitsSomeMonthB (n : ℕ) (l : LumpsumInjection) : Bool :=
  (List.range' 1 n).any fun m => matchesMonth l m

theorem hitsSomeMonthB_iff (n : ℕ) (l : LumpsumInjection) :
    hitsSomeMonthB n l = true ↔
      ∃ m, 1 ≤ m ∧ m ≤ n ∧ matchesMonth l m = true := by
  rw [hitsSomeMonthB, List.any_eq_true]
  constructor
  · rintro ⟨m, hmem, hmatch⟩
    rw [List.mem_range'_1] at hmem
    exact ⟨m, hmem.1, by omega, hmatch⟩
  · rintro ⟨m, h1, h2, hmatch⟩
    exact ⟨m, List.mem_range'_1.mpr ⟨h1, by omega⟩, hmatch⟩

theorem inRangeB_iff (Y : ℕ) (l : LumpsumInjection) :
    inRangeB Y l = true ↔
      ∃ y mo : ℕ, 1 ≤ y ∧ y ≤ Y ∧ 1 ≤ mo ∧ mo ≤ 12 ∧
        l.year = (y : ℚ) ∧ l.month = (mo : ℚ) := by
  rw [inRangeB]
  simp only [List.any_eq_true, List.mem_range'_1, Bool.and_eq_true,
    decide_eq_true_eq]
  constructor
  · rintro ⟨y, ⟨hy1, hy2⟩, mo, ⟨hmo1, hmo2⟩, hy, hmo⟩
    exact ⟨y, mo, hy1, by omega, hmo1, by omega, hy, hmo⟩
  · rintro ⟨y, mo, h1, h2, h3, h4, hy, hmo⟩
    exact ⟨y, ⟨h1, by omega⟩, mo, ⟨h3, by omega⟩, hy, hmo⟩

/-- The per-month injection total, as a function of the injection list. -/
def extraForList (L : List LumpsumInjection) (m : ℕ) : ℚ :=
  ((L.filter (fun l => matchesMonth l m)).map (fun l => l.amount)).sum

theorem foldl_add_amount (L : List LumpsumInjection) (c : ℚ) :
    L.foldl (fun sum l => sum + l.amount) c =
      c + (L.map (fun l => l.amount)).sum := by
  induction L generalizing c with
  | nil => simp
  | cons l L ih =>
      simp only [List.foldl_cons, ih, List.map_cons, List.sum_cons]
      ring

theorem getAdditionalLumpsumsForMonth_eq (s : CalculatorState) (m : ℕ) :
    getAdditionalLumpsumsForMonth s m = extraForList s.additionalLumpsums m := by
  rw [getAdditionalLumpsumsForMonth, extraForList, foldl_add_amount, zero_add]

theorem extraForList_cons (l : LumpsumInjection) (L : List LumpsumInjection)
    (m : ℕ) :
    extraForList (l :: L) m =
      (if matchesMonth l m then l.amount else 0) + extraForList L m := by
  rw [extraForList, List.filter_cons]
  by_cases h : matchesMonth l m
  · simp [h, extraForList]
  · simp [h, extraForList]

/-- A given injection is matched by at most one month index. -/
theorem matchesMonth_unique (l : LumpsumInjection) (m₁ m₂ : ℕ)
    (h₁ : matchesMonth l m₁ = true) (h₂ : matchesMonth l m₂ = true)
    (hm₁ : 1 ≤ m₁) (hm₂ : 1 ≤ m₂) : m₁ = m₂ := by
  simp only [matchesMonth, Bool.and_eq_true, decide_eq_true_eq] at h₁ h₂
  have hy : yearOf m₁ = yearOf m₂ := Nat.cast_inj.mp (h₁.1.symm.trans h₂.1)
  have hmo : monthOf m₁ = monthOf m₂ := Nat.cast_inj.mp (h₁.2.symm.trans h₂.2)
  rw [yearOf, yearOf] at hy
  rw [monthOf, monthOf] at hmo
  omega

/-- Summing one injection's contribution over all simulated months yields its
amount if some month matches it and `0` otherwise. -/
theorem sum_single_injection (l : LumpsumInjection) (n : ℕ) :
    ((List.range' 1 n).map
        (fun m => if matchesMonth l m then l.amount else 0)).sum =
      if hitsSomeMonthB n l then l.amount else 0 := by
  induction n with
  | zero =>
      simp [hitsSomeMonthB]
  | succ n ih =>
      rw [List.range'_1_concat, List.map_append, List.sum_append]
      have h1n : 1 + n = n + 1 := Nat.add_comm 1 n
      rw [h1n, ih]
      by_cases hm : matchesMonth l (n + 1) = true
      · have hnone : hitsSomeMonthB n l = false := by
          rw [Bool.eq_false_iff]
          intro hcontra
          obtain ⟨m, h1, h2, hmatch⟩ := (hitsSomeMonthB_iff n l).mp hcontra
          have := matchesMonth_unique l m (n + 1) hmatch hm h1 (by omega)
          omega
        have hyes : hitsSomeMonthB (n + 1) l = true :=
          (hitsSomeMonthB_iff _ l).mpr ⟨n + 1, by omega, le_refl _, hm⟩
        simp [hnone, hyes, hm]
      · have hsame : hitsSomeMonthB (n + 1) l = hitsSomeMonthB n l := by
          cases hb : hitsSomeMonthB n l with
          | true =>
              obtain ⟨m, h1, h2, hmatch⟩ := (hitsSomeMonthB_iff n l).mp hb
              exact (hitsSomeMonthB_iff _ l).mpr ⟨m, h1, by omega, hmatch⟩
          | false =>
              rw [Bool.eq_false_iff]
              intro hc
              obtain ⟨m, h1, h2, hmatch⟩ := (hitsSomeMonthB_iff _ l).mp hc
              rcases Nat.lt_or_ge m (n + 1) with hlt | hge
              · have : hitsSomeMonthB n l = true :=
                  (hitsSomeMonthB_iff n l).mpr ⟨m, h1, by omega, hmatch⟩
                rw [hb] at this
                exact Bool.false_ne_true this
              · have hmn : m = n + 1 := by omega
                rw [hmn] at hmatch
                exact hm hmatch
        rw [hsame]
        simp [hm]

/-- Swapping the double sum: the total of all per-month injection lookups over
the whole simulation equals the total amount of the injections that are
matched by some simulated month. -/
theorem sum_extraForList (L : List LumpsumInjection) (n : ℕ) :
    ((List.range' 1 n).map (fun m => extraForList L m)).sum =
      ((L.filter (hitsSomeMonthB n)).map (fun l => l.amount)).sum := by
  induction L with
  | nil =>
      simp [extraForList]
  | cons l L ih =>
      have hsplit :
          ((List.range' 1 n).map (fun m => extraForList (l :: L) m)).sum =
            ((List.range' 1 n).map
                (fun m => if matchesMonth l m then l.amount else 0)).sum +
              ((List.range' 1 n).map (fun m => extraForList L m)).sum := by
        simp only [extraForList_cons, List.sum_map_add]
      rw [hsplit, ih, sum_single_injection, List.filter_cons]
      by_cases h : hitsSomeMonthB n l
      · simp [h]
      · simp [h]

/-- Over a whole number of years, being matched by some simulated month is the
same as having an in-range `(year, month)` pair. -/
theorem hitsSomeMonthB_eq_inRangeB (Y : ℕ) (l : LumpsumInjection) :
    hitsSomeMonthB (12 * Y) l = inRangeB Y l := by
  by_cases h : hitsSomeMonthB (12 * Y) l = true
  · rw [h]
    symm
    rw [inRangeB_iff]
    obtain ⟨m, h1, h2, hmatch⟩ := (hitsSomeMonthB_iff _ l).mp h
    simp only [matchesMonth, Bool.and_eq_true, decide_eq_true_eq] at hmatch
    refine ⟨yearOf m, monthOf m, ?_, ?_, ?_, ?_, hmatch.1, hmatch.2⟩
    · rw [yearOf]
      omega
    · rw [yearOf]
      omega
    · rw [monthOf]
      omega
    · rw [monthOf]
      omega
  · rw [Bool.not_eq_true] at h
    rw [h]
    symm
    rw [Bool.eq_false_iff]
    intro hc
    obtain ⟨y, mo, h1, h2, h3, h4, hy, hmo⟩ := (inRangeB_iff Y l).mp hc
    have hyear : yearOf ((y - 1) * 12 + mo) = y := by
      rw [yearOf]
      omega
    have hmonth : monthOf ((y - 1) * 12 + mo) = mo := by
      rw [monthOf]
      omega
    have hhit : hitsSomeMonthB (12 * Y) l = true := by
      refine (hitsSomeMonthB_iff _ l).mpr ⟨(y - 1) * 12 + mo, by omega, by omega, ?_⟩
      simp only [matchesMonth, Bool.and_eq_true, decide_eq_true_eq, hyear, hmonth]
      exact ⟨hy, hmo⟩
    rw [h] at hhit
    exact Bool.false_ne_true hhit

/-- `totalInvested` after `n` months in closed form. -/
theorem totAt_eq_sum (s : CalculatorState) (n : ℕ) :
    totAt s n =
      initTotalInvested s + ((List.range' 1 n).map (instAt s)).sum +
        ((List.range' 1 n).map (fun m => extraForList s.additionalLumpsums m)).sum := by
  induction n with
  | zero => simp [totAt]
  | succ n ih =>
      have h1n : 1 + n = n + 1 := Nat.add_comm 1 n
      rw [totAt, ih, List.range'_1_concat, h1n, List.map_append, List.map_append,
        List.sum_append, List.sum_append, investAt,
        getAdditionalLumpsumsForMonth_eq]
      simp only [List.map_cons, List.map_nil, List.sum_cons, List.sum_nil]
      ring

/-- The per-entry installments of `monthlyData` are the `instAt` values. -/
theorem monthlyData_installments (s : CalculatorState) (n : ℕ) :
    ((List.range' 1 n).map (entryAt s)).map (fun e => e.installment) =
      (List.range' 1 n).map (instAt s) := by
  rw [List.map_map]
  apply List.map_congr_left
  intro m _
  simp [entryAt, Function.comp]

/-- C1 (amended): `totalInvested` equals the initial invested amount
(`lumpsumInvestment` in LUMPSUM mode, `0` otherwise) plus the sum of every
month's installment plus the sum of the amounts of the injections whose
`(year, month)` pair lies within `[1, durationYears] × [1, 12]`; out-of-range
injections contribute nothing and are not an error. -/
theorem calculateSIP_totalInvested_decomposition (s : CalculatorState) (Y : ℕ)
    (hY : s.durationYears = (Y : ℚ)) (hpos : 0 < Y) :
    (calculateSIP s).totalInvested =
      initTotalInvested s +
        ((calculateSIP s).monthlyData.map (fun e => e.installment)).sum +
        ((s.additionalLumpsums.filter (inRangeB Y)).map (fun l => l.amount)).sum := by
  have hn := numMonths_natCast s Y hY
  simp only [calculateSIP_eq, hn]
  rw [monthlyData_installments, totAt_eq_sum]
  have hswap := sum_extraForList s.additionalLumpsums (12 * Y)
  have hfilter :
      s.additionalLumpsums.filter (hitsSomeMonthB (12 * Y)) =
        s.additionalLumpsums.filter (inRangeB Y) :=
    List.filter_congr (fun l _ => hitsSomeMonthB_eq_inRangeB Y l)
  rw [hswap, hfilter]

/-- Witness for C1 at a concrete state with one in-range injection. -/
theorem calculateSIP_totalInvested_decomposition_witness :
    (calculateSIP { baseState with
        additionalLumpsums := [⟨"a", 1, 2, 50⟩] }).totalInvested =
      initTotalInvested { baseState with additionalLumpsums := [⟨"a", 1, 2, 50⟩] } +
        ((calculateSIP { baseState with
            additionalLumpsums := [⟨"a", 1, 2, 50⟩] }).monthlyData.map
          (fun e => e.installment)).sum +
        ((({ baseState with
              additionalLumpsums :=
                [⟨"a", 1, 2, 50⟩] } : CalculatorState).additionalLumpsums.filter
            (inRangeB 1)).map (fun l => l.amount)).sum :=
  calculateSIP_totalInvested_decomposition
    { baseState with additionalLumpsums := [⟨"a", 1, 2, 50⟩] } 1
    (by norm_num [baseState]) (by norm_num)

/-- A LUMPSUM state with a nonzero initial principal, on which the claim's
unamended accounting identity fails. -/
def lumpState : CalculatorState :=
  { baseState with mode := CalculatorMode.LUMPSUM, lumpsumInvestment := 100 }

/-- C1 (counterexample to the claim as stated): in LUMPSUM mode with
`lumpsumInvestment = 100` and `durationYears = 1`, `totalInvested` is `100`,
yet every month's installment is `0` and there are no injections, so the
claimed identity (installments plus in-range injections, without the initial
principal) fails. -/
theorem calculateSIP_totalInvested_claim_counterexample :
    (calculateSIP lumpState).totalInvested ≠
      ((calculateSIP lumpState).monthlyData.map (fun e => e.installment)).sum +
        ((lumpState.additionalLumpsums.filter (inRangeB 1)).map
          (fun l => l.amount)).sum := by
  have hinst : ∀ m : ℕ, instAt lumpState m = 0 := by
    intro m
    induction m with
    | zero => rfl
    | succ m ih =>
        rw [instAt, stepUpAdjust, ih]
        have hmode : lumpState.mode = CalculatorMode.LUMPSUM := rfl
        rw [hmode]
        norm_num
        intro h
        exact absurd h (by decide)
  have hn : numMonths lumpState = 12 := by
    have h := numMonths_natCast lumpState 1 (by norm_num [lumpState, baseState])
    simpa using h
  have hinstsum : ((List.range' 1 12).map (instAt lumpState)).sum = 0 := by
    have hmap : (List.range' 1 12).map (instAt lumpState) =
        (List.range' 1 12).map (fun _ => (0 : ℚ)) :=
      List.map_congr_left (fun m _ => hinst m)
    rw [hmap]
    simp
  have hextra : ∀ m : ℕ, extraForList lumpState.additionalLumpsums m = 0 := by
    intro m
    rfl
  simp only [calculateSIP_eq, hn]
  rw [monthlyData_installments, totAt_eq_sum, hinstsum]
  have hextrasum :
      ((List.range' 1 12).map
        (fun m => extraForList lumpState.additionalLumpsums m)).sum = 0 := by
    have hmap : (List.range' 1 12).map
        (fun m => extraForList lumpState.additionalLumpsums m) =
        (List.range' 1 12).map (fun _ => (0 : ℚ)) :=
      List.map_congr_left (fun m _ => hextra m)
    rw [hmap]
    simp
  rw [hextrasum]
  have hinit : initTotalInvested lumpState = 100 := rfl
  have hempty : lumpState.additionalLumpsums = [] := rfl
  rw [hinit, hempty]
  norm_num

/-! ### C4: monotonicity of the `invested` column -/

/-- The `invested` fields of `monthlyData` are the `totAt` values. -/
theorem monthlyData_invested (s : CalculatorState) (n : ℕ) :
    ((List.range' 1 n).map (entryAt s)).map (fun e => e.invested) =
      (List.range' 1 n).map (totAt s) := by
  rw [List.map_map]
  apply List.map_congr_left
  intro m _
  simp [entryAt, Function.comp]

/-- Under non-negative cash flows, every month's installment is non-negative. -/
theorem instAt_nonneg (s : CalculatorState) (hmi : 0 ≤ s.monthlyInvestment)
    (hsu : 0 ≤ s.stepUpAmount) : ∀ m : ℕ, 0 ≤ instAt s m := by
  intro m
  induction m with
  | zero =>
      show 0 ≤ initInstallment s
      cases hmode : s.mode <;> simp [initInstallment, hmode] <;> exact hmi
  | succ m ih =>
      rw [instAt, stepUpAdjust]
      by_cases h : s.mode = CalculatorMode.STEP_UP ∧ 1 < m + 1
      · rw [if_pos h]
        cases hf : s.stepUpFrequency
        · exact add_nonneg ih hsu
        · by_cases h12 : (m + 1 - 1) % 12 = 0
          · rw [if_pos h12]
            exact add_nonneg ih hsu
          · rw [if_neg h12]
            exact ih
      · rw [if_neg h]
        exact ih

/-- Under non-negative injection amounts, every month's injection total is
non-negative. -/
theorem extraForList_nonneg (L : List LumpsumInjection)
    (hL : ∀ l ∈ L, 0 ≤ l.amount) (m : ℕ) : 0 ≤ extraForList L m := by
  rw [extraForList]
  apply List.sum_nonneg
  intro x hx
  obtain ⟨l, hlf, rfl⟩ := List.mem_map.mp hx
  exact hL l (List.mem_filter.mp hlf).1

/-- Under non-negative cash flows, `totAt` is monotone. -/
theorem totAt_monotone (s : CalculatorState) (hmi : 0 ≤ s.monthlyInvestment)
    (hsu : 0 ≤ s.stepUpAmount)
    (hL : ∀ l ∈ s.additionalLumpsums, 0 ≤ l.amount) : Monotone (totAt s) := by
  apply monotone_nat_of_le_succ
  intro m
  rw [totAt]
  apply le_add_of_nonneg_right
  rw [investAt, getAdditionalLumpsumsForMonth_eq]
  exact add_nonneg (instAt_nonneg s hmi hsu _) (extraForList_nonneg _ hL _)

/-- C4 (amended): for every state with a positive integral duration whose
`monthlyInvestment`, `stepUpAmount` and injection amounts are all
non-negative, the `invested` field of `monthlyData` is non-decreasing from
each month to the next, and every month's `invested` (the first in
particular) is at least the initial `totalInvested`. -/
theorem calculateSIP_invested_monotone (s : CalculatorState) (Y : ℕ)
    (hY : s.durationYears = (Y : ℚ)) (hpos : 0 < Y)
    (hmi : 0 ≤ s.monthlyInvestment) (hsu : 0 ≤ s.stepUpAmount)
    (hL : ∀ l ∈ s.additionalLumpsums, 0 ≤ l.amount) :
    ((calculateSIP s).monthlyData.map (fun e => e.invested)).Sorted (· ≤ ·) ∧
      ∀ e ∈ (calculateSIP s).monthlyData, initTotalInvested s ≤ e.invested := by
  have hmono := totAt_monotone s hmi hsu hL
  have hn := numMonths_natCast s Y hY
  simp only [calculateSIP_eq, hn]
  constructor
  · rw [monthlyData_invested]
    exact (List.pairwise_lt_range' 1 (12 * Y) 1 (by norm_num)).map _
      (fun a b hab => hmono (Nat.le_of_lt hab))
  · intro e he
    obtain ⟨m, _, rfl⟩ := List.mem_map.mp he
    show initTotalInvested s ≤ totAt s m
    have h0 : totAt s 0 = initTotalInvested s := rfl
    rw [← h0]
    exact hmono (Nat.zero_le m)

/-- Witness for C4 at a concrete state with positive contributions. -/
theorem calculateSIP_invested_monotone_witness :
    ((calculateSIP { baseState with
        monthlyInvestment := 5 }).monthlyData.map (fun e => e.invested)).Sorted
        (· ≤ ·) ∧
      ∀ e ∈ (calculateSIP { baseState with monthlyInvestment := 5 }).monthlyData,
        initTotalInvested { baseState with monthlyInvestment := 5 } ≤
          e.invested :=
  calculateSIP_invested_monotone { baseState with monthlyInvestment := 5 } 1
    (by norm_num [baseState]) (by norm_num) (by norm_num [baseState])
    (by norm_num [baseState]) (by intro l hl; simp [baseState] at hl)

/-- The SIP state with a negative monthly contribution used to refute the
unamended C4. -/
def negState : CalculatorState := { baseState with monthlyInvestment := -1 }

/-- C4 (counterexample to the claim as stated): with
`monthlyInvestment = -1`, the first two `invested` values are `-1` and `-2`,
so `invested` strictly decreases from month 1 to month 2. -/
theorem calculateSIP_invested_monotone_counterexample :
    ((calculateSIP negState).monthlyData.map (fun e => e.invested))[0]? =
        some (-1 : ℚ) ∧
      ((calculateSIP negState).monthlyData.map (fun e => e.invested))[1]? =
        some (-2 : ℚ) ∧
      ¬ ((-1 : ℚ) ≤ -2) := by
  have hinst : ∀ m : ℕ, instAt negState m = -1 := by
    intro m
    induction m with
    | zero => rfl
    | succ m ih =>
        rw [instAt, stepUpAdjust, ih]
        have hmode : negState.mode = CalculatorMode.SIP := rfl
        rw [hmode]
        norm_num
        intro h
        exact absurd h (by decide)
  have htot : ∀ m : ℕ, totAt negState m = -(m : ℚ) := by
    intro m
    induction m with
    | zero => norm_num; rfl
    | succ m ih =>
        rw [totAt, ih, investAt, hinst]
        have hextra : getAdditionalLumpsumsForMonth negState (m + 1) = 0 := rfl
        rw [hextra]
        push_cast
        ring
  have hn : numMonths negState = 12 := by
    have h := numMonths_natCast negState 1 (by norm_num [negState, baseState])
    simpa using h
  simp only [calculateSIP_eq, hn, monthlyData_invested]
  have h0 : (List.range' 1 12)[0]? = some 1 := rfl
  have h1 : (List.range' 1 12)[1]? = some 2 := rfl
  refine ⟨?_, ?_, by norm_num⟩
  · simp only [List.getElem?_map, h0, Option.map_some']
    rw [htot 1]
    norm_num
  · simp only [List.getElem?_map, h1, Option.map_some']
    rw [htot 2]
    norm_num

/-! ### C5: the yearly step-up scenario -/

/-- Scenario B state: STEP_UP mode, 1000/month, +100 yearly, 2 years, 0%. -/
def stepState : CalculatorState :=
  { baseState with
    mode := CalculatorMode.STEP_UP
    monthlyInvestment := 1000
    stepUpAmount := 100
    durationYears := 2 }

theorem stepState_instAt : ∀ m : ℕ, m ≤ 24 →
    instAt stepState m = if m ≤ 12 then 1000 else 1100 := by
  intro m
  induction m with
  | zero =>
      intro _
      norm_num
      rfl
  | succ m ih =>
      intro hm
      have hmode : stepState.mode = CalculatorMode.STEP_UP := rfl
      have hfreq : stepState.stepUpFrequency = StepUpFrequency.YEARLY := rfl
      have hamt : stepState.stepUpAmount = 100 := rfl
      rw [instAt, stepUpAdjust, hmode, hfreq, hamt, Nat.add_sub_cancel]
      rcases Nat.eq_zero_or_pos m with hm0 | hmpos
      · subst hm0
        have h0 : instAt stepState 0 = 1000 := rfl
        norm_num [h0]
      · rw [if_pos ⟨rfl, by omega⟩]
        by_cases h2 : m % 12 = 0
        · have hm12 : m = 12 := by omega
          subst hm12
          rw [if_pos h2, ih (by omega)]
          norm_num
        · rw [if_neg h2, ih (by omega)]
          by_cases h3 : m ≤ 12
          · have h4 : m + 1 ≤ 12 := by omega
            rw [if_pos h3, if_pos h4]
          · have h4 : ¬ (m + 1 ≤ 12) := by omega
            rw [if_neg h3, if_neg h4]

theorem stepState_installments :
    (List.range' 1 24).map (instAt stepState) =
      List.replicate 12 (1000 : ℚ) ++ List.replicate 12 1100 := by
  have hsplit : List.range' 1 24 = List.range' 1 12 ++ List.range' 13 12 :=
    (List.range'_append_1 1 12 12).symm
  have h1 : (List.range' 1 12).map (instAt stepState) =
      (List.range' 1 12).map (fun _ => (1000 : ℚ)) := by
    apply List.map_congr_left
    intro m hm
    rw [List.mem_range'_1] at hm
    rw [stepState_instAt m (by omega), if_pos (by omega)]
  have h2 : (List.range' 13 12).map (instAt stepState) =
      (List.range' 13 12).map (fun _ => (1100 : ℚ)) := by
    apply List.map_congr_left
    intro m hm
    rw [List.mem_range'_1] at hm
    rw [stepState_instAt m (by omega), if_neg (by omega)]
  rw [hsplit, List.map_append, h1, h2, List.map_const', List.map_const']
  simp

/-- C5: on the Scenario B state (STEP_UP, 1000 per month, +100 YEARLY,
2 years, 0% interest, no injections/inflation/target), `calculateSIP` gives
installment 1000 for months 1–12 and 1100 for months 13–24 (the yearly
step-up fires once, cumulatively), and `totalInvested = 25200 = totalWealth`. -/
theorem calculateSIP_scenarioB :
    (calculateSIP stepState).monthlyData.map (fun e => e.installment) =
        List.replicate 12 (1000 : ℚ) ++ List.replicate 12 1100 ∧
      (calculateSIP stepState).totalInvested = 25200 ∧
      (calculateSIP stepState).totalWealth = 25200 := by
  have hn : numMonths stepState = 24 := by
    have h := numMonths_natCast stepState 2 (by norm_num [stepState, baseState])
    simpa using h
  have htotval : totAt stepState 24 = 25200 := by
    rw [totAt_eq_sum, stepState_installments]
    have hextra :
        ((List.range' 1 24).map
          (fun m => extraForList stepState.additionalLumpsums m)).sum = 0 := by
      have h : (List.range' 1 24).map
          (fun m => extraForList stepState.additionalLumpsums m) =
          (List.range' 1 24).map (fun _ => (0 : ℚ)) :=
        List.map_congr_left (fun m _ => rfl)
      rw [h]
      simp
    rw [hextra]
    have hinit : initTotalInvested stepState = 0 := rfl
    rw [hinit, List.sum_append, List.sum_replicate, List.sum_replicate]
    norm_num
  have hbt := balAt_eq_totAt_of_zero_rate stepState (by norm_num [stepState, baseState])
  simp only [calculateSIP_eq, hn, monthlyData_installments]
  exact ⟨stepState_installments, htotval, by rw [hbt, htotval]⟩

/-! ### C3: goal detection -/

/-- Unfolding `goalAt` at a successor month when a target is present. -/
theorem goalAt_succ_eq (s : CalculatorState) (t : ℚ)
    (htarget : s.targetAmount = some t) (n : ℕ) :
    goalAt s (n + 1) =
      if t ≠ 0 ∧ t ≤ balAt s (n + 1) ∧ goalAt s n = none then
        some (yearOf (n + 1), monthOf (n + 1))
      else goalAt s n := by
  rw [goalAt, htarget]

/-- No goal is recorded through month `n` exactly when no month up to `n`
closed at or above the (nonzero) target. -/
theorem goalAt_eq_none_iff (s : CalculatorState) (t : ℚ)
    (htarget : s.targetAmount = some t) (ht : t ≠ 0) :
    ∀ n : ℕ, goalAt s n = none ↔ ∀ m, 1 ≤ m → m ≤ n → balAt s m < t := by
  intro n
  induction n with
  | zero =>
      constructor
      · intro _ m h1 h2
        omega
      · intro _
        rfl
  | succ n ih =>
      rw [goalAt_succ_eq s t htarget]
      by_cases hc : t ≤ balAt s (n + 1)
      · have hrhs : ¬ ∀ m, 1 ≤ m → m ≤ n + 1 → balAt s m < t := by
          intro hall
          exact absurd hc (not_le.mpr (hall (n + 1) (by omega) (le_refl _)))
        apply iff_of_false ?_ hrhs
        cases hg : goalAt s n with
        | none =>
            rw [if_pos ⟨ht, hc, rfl⟩]
            simp
        | some g =>
            rw [if_neg (by simp)]
            simp
      · rw [if_neg (fun hcond => hc hcond.2.1)]
        rw [ih]
        constructor
        · intro hall m h1 h2
          rcases Nat.lt_or_ge m (n + 1) with hlt | hge
          · exact hall m h1 (by omega)
          · have hm : m = n + 1 := by omega
            rw [hm]
            exact not_le.mp hc
        · intro hall m h1 h2
          exact hall m h1 (by omega)

/-- If month `m₀` is the first month closing at or above the (nonzero)
target, the recorded goal after any `n ≥ m₀` months is month `m₀`'s
`(year, month)` pair. -/
theorem goalAt_first_crossing (s : CalculatorState) (t : ℚ)
    (htarget : s.targetAmount = some t) (ht : t ≠ 0) :
    ∀ n m₀ : ℕ, 1 ≤ m₀ → m₀ ≤ n → t ≤ balAt s m₀ →
      (∀ k, 1 ≤ k → k < m₀ → balAt s k < t) →
      goalAt s n = some (yearOf m₀, monthOf m₀) := by
  intro n
  induction n with
  | zero =>
      intro m₀ h1 h2 _ _
      omega
  | succ n ih =>
      intro m₀ h1 h2 hcross hfirst
      rcases Nat.lt_or_ge n m₀ with hlt | hge
      · have hm : m₀ = n + 1 := by omega
        subst hm
        have hnone : goalAt s n = none := by
          rw [goalAt_eq_none_iff s t htarget ht]
          intro k hk1 hk2
          exact hfirst k hk1 (by omega)
        rw [goalAt_succ_eq s t htarget, if_pos ⟨ht, hcross, hnone⟩]
      · have hprev := ih m₀ h1 hge hcross hfirst
        rw [goalAt_succ_eq s t htarget, if_neg (by simp [hprev])]
        exact hprev

/-- C3 (amended): for every state with a nonzero `targetAmount` and a positive
integral duration, `goalAchievedMonth` is absent exactly when no month's
closing nominal balance reaches `targetAmount`; if month `m₀` is the earliest
month whose closing balance is at or above `targetAmount` (equality counts),
the recorded goal is `{year = ⌈m₀/12⌉, month = ((m₀-1) mod 12) + 1}`; and a
target at or below the first month's closing balance gives `{year 1, month 1}`. -/
theorem calculateSIP_goal_first_crossing (s : CalculatorState) (Y : ℕ) (t : ℚ)
    (htarget : s.targetAmount = some t) (ht : t ≠ 0)
    (hY : s.durationYears = (Y : ℚ)) (hpos : 0 < Y) :
    ((calculateSIP s).goalAchievedMonth = none ↔
        ∀ m, 1 ≤ m → m ≤ Y * 12 → balAt s m < t) ∧
      (∀ m₀, 1 ≤ m₀ → m₀ ≤ Y * 12 → t ≤ balAt s m₀ →
        (∀ k, 1 ≤ k → k < m₀ → balAt s k < t) →
        (calculateSIP s).goalAchievedMonth = some (yearOf m₀, monthOf m₀)) ∧
      (t ≤ balAt s 1 →
        (calculateSIP s).goalAchievedMonth = some (1, 1)) := by
  have hn := numMonths_natCast s Y hY
  have hn' : numMonths s = Y * 12 := by omega
  simp only [calculateSIP_eq, hn']
  refine ⟨goalAt_eq_none_iff s t htarget ht (Y * 12), ?_, ?_⟩
  · intro m₀ h1 h2 hcross hfirst
    exact goalAt_first_crossing s t htarget ht (Y * 12) m₀ h1 h2 hcross hfirst
  · intro hcross
    have h111 : (1, 1) = (yearOf 1, monthOf 1) := rfl
    rw [h111]
    exact goalAt_first_crossing s t htarget ht (Y * 12) 1 (le_refl _)
      (by omega) hcross (fun k hk1 hk2 => by omega)

/-- The state used in the C3 witness: 1 per month at 0% with target 1. -/
def goalState : CalculatorState :=
  { baseState with monthlyInvestment := 1, targetAmount := some 1 }

theorem goalState_balAt_one : balAt goalState 1 = 1 := by
  have h0 : balAt goalState 0 = 0 := rfl
  have hrate : monthlyRate goalState = 0 := by
    norm_num [monthlyRate, goalState, baseState]
  have hinst : instAt goalState 1 = 1 := by
    have hcond : ¬ (goalState.mode = CalculatorMode.STEP_UP ∧ 1 < 1) := by
      intro h
      exact absurd h.2 (by norm_num)
    rw [instAt, stepUpAdjust, if_neg hcond]
    rfl
  have hextra : getAdditionalLumpsumsForMonth goalState 1 = 0 := rfl
  rw [balAt, investAt, h0, hrate, hinst, hextra]
  ring

/-- Witness for C3: with a reachable nonzero target the goal is recorded in
year 1, month 1. -/
theorem calculateSIP_goal_first_crossing_witness :
    (calculateSIP goalState).goalAchievedMonth = some (1, 1) :=
  (calculateSIP_goal_first_crossing goalState 1 1 rfl (by norm_num)
      (by norm_num [goalState, baseState]) (by norm_num)).2.2
    (by rw [goalState_balAt_one])

/-- The all-zero state with target exactly 0, refuting the unamended C3. -/
def zeroTargetState : CalculatorState :=
  { baseState with targetAmount := some 0 }

/-- C3 (counterexample to the claim as stated): with `targetAmount = 0` set
and every closing balance equal to `0 ≥ targetAmount`, the claim as stated
would put the goal at `{year 1, month 1}`, but the truthiness guard makes the
code record no goal at all. -/
theorem calculateSIP_goal_claim_counterexample :
    (0 : ℚ) ≤ balAt zeroTargetState 1 ∧
      (calculateSIP zeroTargetState).goalAchievedMonth = none := by
  constructor
  · have hrate : monthlyRate zeroTargetState = 0 := by
      norm_num [monthlyRate, zeroTargetState, baseState]
    have hinst : instAt zeroTargetState 1 = 0 := by
      have hcond : ¬ (zeroTargetState.mode = CalculatorMode.STEP_UP ∧ 1 < 1) := by
        intro h
        exact absurd h.2 (by norm_num)
      rw [instAt, stepUpAdjust, if_neg hcond]
      rfl
    have hextra : getAdditionalLumpsumsForMonth zeroTargetState 1 = 0 := rfl
    have h0 : balAt zeroTargetState 0 = 0 := rfl
    rw [balAt, investAt, h0, hrate, hinst, hextra]
    norm_num
  · have hg : ∀ m, goalAt zeroTargetState m = none := by
      intro m
      induction m with
      | zero => rfl
      | succ m ih =>
          have ht : zeroTargetState.targetAmount = some 0 := rfl
          simp [goalAt, ht, ih]
    rw [calculateSIP_eq]
    exact hg _

/-! ### C7: final real wealth versus the last month's real value -/

/-- C7: for every state with a positive integral duration and
`inflationRate > -100`, the `totalRealWealth` returned by `calculateSIP`
(computed with the whole-number exponent `durationYears`) equals the
`realValue` field of the last entry of `monthlyData` (computed with the
fractional exponent `m / 12` at `m = durationYears * 12`). -/
theorem calculateSIP_totalRealWealth_eq_last_realValue (s : CalculatorState)
    (Y : ℕ) (hY : s.durationYears = (Y : ℚ)) (hpos : 0 < Y)
    (hinfl : -100 < s.inflationRate) :
    ∀ e, (calculateSIP s).monthlyData.getLast? = some e →
      (calculateSIP s).totalRealWealth = e.realValue := by
  have hn := numMonths_natCast s Y hY
  intro e he
  rw [calculateSIP_eq] at he
  simp only [hn, List.getLast?_map, List.getLast?_range'] at he
  have h12Y : ¬ (12 * Y = 0) := by omega
  rw [if_neg h12Y] at he
  simp only [Option.map_some'] at he
  have hidx : 1 + 12 * Y - 1 = 12 * Y := by omega
  rw [hidx] at he
  have he' : e = entryAt s (12 * Y) := (Option.some.injEq _ _).mp he.symm
  subst he'
  rw [calculateSIP_eq]
  show (balAt s (numMonths s) : ℝ) /
      (1 + (annualInflationDecimal s : ℝ)) ^ ((s.durationYears : ℝ)) =
    (balAt s (12 * Y) : ℝ) /
      (1 + (annualInflationDecimal s : ℝ)) ^ (((12 * Y : ℕ) : ℝ) / 12)
  rw [hn]
  have hexp : ((s.durationYears : ℝ)) = ((12 * Y : ℕ) : ℝ) / 12 := by
    rw [hY]
    push_cast
    ring
  rw [hexp]

/-- Witness for C7 at a concrete one-year state. -/
theorem calculateSIP_totalRealWealth_eq_last_realValue_witness :
    (calculateSIP baseState).totalRealWealth = (entryAt baseState 12).realValue :=
  calculateSIP_totalRealWealth_eq_last_realValue baseState 1
    (by norm_num [baseState]) (by norm_num) (by norm_num [baseState])
    (entryAt baseState 12)
    (by
      have hn : numMonths baseState = 12 := by
        have h := numMonths_natCast baseState 1 (by norm_num [baseState])
        simpa using h
      rw [calculateSIP_eq]
      simp only [hn, List.getLast?_map, List.getLast?_range']
      norm_num)

/-! ### C8: the report serializer

The report text is modelled as its character sequence (`List Char`).
`Math.round` on JS numbers is `⌊x + 1/2⌋` (half rounds toward `+∞`), and the
template-string rendering of an integer-valued number is its plain decimal
numeral, modelled by `renderInt`. -/

/-- `Math.round` on an exact rational. -/
def jsRound (q : ℚ) : ℤ := ⌊q + 1 / 2⌋

/-- `Math.round` on a real value (the inflation-adjusted cells). -/
noncomputable def jsRoundR (x : ℝ) : ℤ := ⌊x + 1 / 2⌋

/-- Decimal numeral of a natural number, most significant digit first. -/
def renderNat (n : ℕ) : List Char :=
  if n = 0 then ['0'] else ((Nat.digits 10 n).map Nat.digitChar).reverse

/-- Decimal numeral of an integer, with a leading minus sign if negative. -/
def renderInt (i : ℤ) : List Char :=
  if i < 0 then '-' :: renderNat i.natAbs else renderNat i.natAbs

/-- Parse a decimal numeral back into a natural number. -/
def parseNat (cs : List Char) : Option ℕ :=
  if cs ≠ [] ∧ cs.all Char.isDigit then
    some (cs.foldl (fun acc ch => 10 * acc + (ch.toNat - Char.toNat '0')) 0)
  else none

/-- Parse an optionally-signed decimal numeral back into an integer. -/
def parseInt (cs : List Char) : Option ℤ :=
  match cs with
  | [] => none
  | ch :: rest =>
      if ch = '-' then (parseNat rest).map (fun n => -(n : ℤ))
      else (parseNat (ch :: rest)).map (fun n => (n : ℤ))

/-- The SUMMARY data row of the report. -/
noncomputable def summaryRowChars (r : CalculationResult) : List Char :=
  renderInt (jsRound r.totalInvested) ++ ',' ::
    (renderInt (jsRound r.totalWealth) ++ ',' ::
      (renderInt (jsRoundR r.totalRealWealth) ++ ',' ::
        renderInt (jsRound r.totalGain)))

/-- The optional GOAL ACHIEVED line. -/
def goalSection : Option (ℕ × ℕ) → List Char
  | some g =>
      "GOAL ACHIEVED IN,Year ".data ++ renderNat g.1 ++
        " Month ".data ++ renderNat g.2 ++ ['\n', '\n']
  | none => []

/-- One YEARLY BREAKDOWN data row. -/
noncomputable def yearlyRowChars (row : YearlyResult) : List Char :=
  renderNat row.year ++ ',' ::
    (renderInt (jsRound row.investedAmount) ++ ',' ::
      (renderInt (jsRound row.interestEarned) ++ ',' ::
        (renderInt (jsRound row.totalValue) ++ ',' ::
          renderInt (jsRoundR row.realValue)))) ++ ['\n']

/-- One MONTHLY BREAKDOWN data row. -/
noncomputable def monthlyRowChars (row : MonthlyDataPoint) : List Char :=
  renderNat row.monthIndex ++ ',' ::
    (renderNat row.year ++ ',' ::
      (renderInt (jsRound row.installment) ++ ',' ::
        (renderInt (jsRound row.invested) ++ ',' ::
          (renderInt (jsRound row.value) ++ ',' ::
            renderInt (jsRoundR row.realValue))))) ++ ['\n']

/-- `generateCSV` from `src/utils/financial.ts`: title, SUMMARY section,
optional goal line, YEARLY BREAKDOWN, MONTHLY BREAKDOWN, with every numeric
cell rounded at render time only. -/
noncomputable def generateCSV (r : CalculationResult) : List Char :=
  "GrowthStack Investment Report - Generated by [Owner ID: USER-ID-OWNER-V1-SECURE-7782]".data ++
    '\n' :: '\n' ::
    ("SUMMARY".data ++ '\n' ::
      ("Total Invested,Total Wealth (Nominal),Total Wealth (Real/Inflation Adjusted),Total Gain".data ++
        '\n' ::
        (summaryRowChars r ++ '\n' :: '\n' ::
          (goalSection r.goalAchievedMonth ++
            ("YEARLY BREAKDOWN".data ++ '\n' ::
              ("Year,Invested Amount,Interest Earned,Total Value (Nominal),Real Value (Inflation Adjusted)".data ++
                '\n' ::
                (r.yearlyBreakdown.foldl (fun acc row => acc ++ yearlyRowChars row)
                    [] ++
                  '\n' ::
                  ("MONTHLY BREAKDOWN".data ++ '\n' ::
                    ("Month,Year,Monthly Installment,Total Invested,Total Value,Real Value".data ++
                      '\n' ::
                      r.monthlyData.foldl
                        (fun acc row => acc ++ monthlyRowChars row) [])))))))))

/-- Split a character sequence at every occurrence of a separator. -/
def splitOnChar (c : Char) : List Char → List (List Char)
  | [] => [[]]
  | a :: rest =>
      if a = c then [] :: splitOnChar c rest
      else
        match splitOnChar c rest with
        | [] => [[a]]
        | h :: t => (a :: h) :: t

theorem digitChar_facts (d : ℕ) (hd : d < 10) :
    (Nat.digitChar d).isDigit = true ∧
      Char.toNat (Nat.digitChar d) - Char.toNat '0' = d := by
  interval_cases d <;> exact ⟨by decide, by decide⟩

theorem renderNat_ne_nil (n : ℕ) : renderNat n ≠ [] := by
  rw [renderNat]
  by_cases h : n = 0
  · rw [if_pos h]
    simp
  · rw [if_neg h]
    simp [Nat.digits_ne_nil_iff_ne_zero.mpr h]

theorem renderNat_isDigit (n : ℕ) : ∀ ch ∈ renderNat n, ch.isDigit = true := by
  intro ch hch
  rw [renderNat] at hch
  by_cases h : n = 0
  · rw [if_pos h] at hch
    simp at hch
    rw [hch]
    decide
  · rw [if_neg h] at hch
    rw [List.mem_reverse, List.mem_map] at hch
    obtain ⟨d, hd, rfl⟩ := hch
    exact (digitChar_facts d (Nat.digits_lt_base (by norm_num) hd)).1

theorem renderInt_mem (i : ℤ) :
    ∀ ch ∈ renderInt i, ch = '-' ∨ ch.isDigit = true := by
  intro ch hch
  rw [renderInt] at hch
  by_cases h : i < 0
  · rw [if_pos h] at hch
    rcases List.mem_cons.mp hch with h1 | h1
    · exact Or.inl h1
    · exact Or.inr (renderNat_isDigit _ ch h1)
  · rw [if_neg h] at hch
    exact Or.inr (renderNat_isDigit _ ch hch)

theorem renderInt_no_newline (i : ℤ) : '\n' ∉ renderInt i := by
  intro h
  rcases renderInt_mem i _ h with h1 | h1
  · exact absurd h1 (by decide)
  · exact absurd h1 (by decide)

theorem renderInt_no_comma (i : ℤ) : ',' ∉ renderInt i := by
  intro h
  rcases renderInt_mem i _ h with h1 | h1
  · exact absurd h1 (by decide)
  · exact absurd h1 (by decide)

theorem foldl_digits_horner (L : List ℕ) :
    ∀ acc : ℕ, L.reverse.foldl (fun a d => 10 * a + d) acc =
      acc * 10 ^ L.length + Nat.ofDigits 10 L := by
  induction L with
  | nil =>
      intro acc
      simp
  | cons d L ih =>
      intro acc
      rw [List.reverse_cons, List.foldl_append]
      simp only [List.foldl_cons, List.foldl_nil]
      rw [ih, Nat.ofDigits_cons, List.length_cons]
      ring

theorem foldl_map_digitChar (L : List ℕ) (hL : ∀ d ∈ L, d < 10) :
    ∀ acc : ℕ,
      ((L.map Nat.digitChar).reverse).foldl
          (fun a ch => 10 * a + (Char.toNat ch - Char.toNat '0')) acc =
        L.reverse.foldl (fun a d => 10 * a + d) acc := by
  induction L with
  | nil =>
      intro acc
      rfl
  | cons d L ih =>
      intro acc
      rw [List.map_cons, List.reverse_cons, List.reverse_cons,
        List.foldl_append, List.foldl_append]
      simp only [List.foldl_cons, List.foldl_nil]
      rw [ih (fun x hx => hL x (List.mem_cons_of_mem d hx)),
        (digitChar_facts d (hL d (List.mem_cons_self d L))).2]

theorem parseNat_renderNat (n : ℕ) : parseNat (renderNat n) = some n := by
  by_cases h : n = 0
  · subst h
    decide
  · rw [parseNat]
    have hne : renderNat n ≠ [] := renderNat_ne_nil n
    have hdig : (renderNat n).all Char.isDigit = true := by
      rw [List.all_eq_true]
      intro ch hch
      exact renderNat_isDigit n ch hch
    rw [if_pos ⟨hne, hdig⟩]
    congr 1
    rw [renderNat, if_neg h,
      foldl_map_digitChar _ (fun d hd => Nat.digits_lt_base (by norm_num) hd),
      foldl_digits_horner]
    simp [Nat.ofDigits_digits]

theorem parseInt_renderInt (i : ℤ) : parseInt (renderInt i) = some i := by
  by_cases h : i < 0
  · have hri : renderInt i = '-' :: renderNat i.natAbs := by
      rw [renderInt, if_pos h]
    rw [hri]
    show (parseNat (renderNat i.natAbs)).map (fun n => -(n : ℤ)) = some i
    rw [parseNat_renderNat]
    simp
    rw [abs_of_neg h, neg_neg]
  · have hri : renderInt i = renderNat i.natAbs := by
      rw [renderInt, if_neg h]
    obtain ⟨ch, rest, hcr⟩ : ∃ ch rest, renderNat i.natAbs = ch :: rest := by
      cases hx : renderNat i.natAbs with
      | nil => exact absurd hx (renderNat_ne_nil _)
      | cons a b => exact ⟨a, b, rfl⟩
    have hch : ch.isDigit = true :=
      renderNat_isDigit _ ch (by rw [hcr]; exact List.mem_cons_self _ _)
    have hchne : ¬ ch = '-' := by
      intro hcontra
      rw [hcontra] at hch
      exact absurd hch (by decide)
    rw [hri, hcr]
    simp only [parseInt, if_neg hchne]
    rw [← hcr, parseNat_renderNat]
    simp [Int.natAbs_of_nonneg (not_lt.mp h)]

theorem splitOnChar_cons_self (c : Char) (l : List Char) :
    splitOnChar c (c :: l) = [] :: splitOnChar c l := by
  simp [splitOnChar]

theorem splitOnChar_sep (c : Char) (p l : List Char) (hp : c ∉ p) :
    splitOnChar c (p ++ c :: l) = p :: splitOnChar c l := by
  induction p with
  | nil =>
      simp [splitOnChar_cons_self]
  | cons a p ih =>
      have ha : ¬ a = c := fun hac => hp (List.mem_cons.mpr (Or.inl hac.symm))
      have hp' : c ∉ p := fun hc => hp (List.mem_cons_of_mem a hc)
      rw [List.cons_append]
      simp only [splitOnChar, if_neg ha, ih hp']

theorem splitOnChar_no_sep (c : Char) (l : List Char) (hl : c ∉ l) :
    splitOnChar c l = [l] := by
  induction l with
  | nil => rfl
  | cons a rest ih =>
      have ha : ¬ a = c := fun hac => hl (List.mem_cons.mpr (Or.inl hac.symm))
      have hrest : c ∉ rest := fun hc => hl (List.mem_cons_of_mem a hc)
      simp only [splitOnChar, if_neg ha, ih hrest]

theorem summaryRowChars_no_newline (r : CalculationResult) :
    '\n' ∉ summaryRowChars r := by
  intro h
  rw [summaryRowChars] at h
  rcases List.mem_append.mp h with h1 | h1
  · exact renderInt_no_newline _ h1
  rcases List.mem_cons.mp h1 with h2 | h2
  · exact absurd h2 (by decide)
  rcases List.mem_append.mp h2 with h3 | h3
  · exact renderInt_no_newline _ h3
  rcases List.mem_cons.mp h3 with h4 | h4
  · exact absurd h4 (by decide)
  rcases List.mem_append.mp h4 with h5 | h5
  · exact renderInt_no_newline _ h5
  rcases List.mem_cons.mp h5 with h6 | h6
  · exact absurd h6 (by decide)
  exact renderInt_no_newline _ h6

theorem summaryRow_fields (r : CalculationResult) :
    splitOnChar ',' (summaryRowChars r) =
      [renderInt (jsRound r.totalInvested), renderInt (jsRound r.totalWealth),
       renderInt (jsRoundR r.totalRealWealth), renderInt (jsRound r.totalGain)] := by
  rw [summaryRowChars,
    splitOnChar_sep ',' _ _ (renderInt_no_comma _),
    splitOnChar_sep ',' _ _ (renderInt_no_comma _),
    splitOnChar_sep ',' _ _ (renderInt_no_comma _),
    splitOnChar_no_sep ',' _ (renderInt_no_comma _)]

/-- C8: for every `CalculationResult`, line 4 of the report produced by
`generateCSV` is the SUMMARY data row; its comma-separated fields are exactly
the decimal renderings of `round(totalInvested)`, `round(totalWealth)`,
`round(totalRealWealth)`, `round(totalGain)` computed independently from the
input result; and re-parsing those fields recovers those four rounded
integers exactly. -/
theorem generateCSV_summary_roundtrip (r : CalculationResult) :
    (splitOnChar '\n' (generateCSV r))[4]? = some (summaryRowChars r) ∧
      splitOnChar ',' (summaryRowChars r) =
        [renderInt (jsRound r.totalInvested), renderInt (jsRound r.totalWealth),
         renderInt (jsRoundR r.totalRealWealth),
         renderInt (jsRound r.totalGain)] ∧
      (splitOnChar ',' (summaryRowChars r)).map parseInt =
        [some (jsRound r.totalInvested), some (jsRound r.totalWealth),
         some (jsRoundR r.totalRealWealth), some (jsRound r.totalGain)] := by
  refine ⟨?_, summaryRow_fields r, ?_⟩
  · rw [generateCSV,
      splitOnChar_sep '\n' _ _ (by decide),
      splitOnChar_cons_self,
      splitOnChar_sep '\n' _ _ (by decide),
      splitOnChar_sep '\n' _ _ (by decide),
      splitOnChar_sep '\n' _ _ (summaryRowChars_no_newline r)]
    rfl
  · rw [summaryRow_fields]
    simp only [List.map_cons, List.map_nil, parseInt_renderInt]

end GrowthStack
